import Mathlib

/-!
Shallow embedding of the review-scraper pipeline (`main.py`) and proofs of
the specification's claims about it.

External collaborators (the `requests` transport, the Selenium rendering
capability, `dateutil`'s date parser, `urllib`'s `quote_plus`/`urljoin`,
and BeautifulSoup's DOM queries) are modelled as oracle parameters or as
plain data fields, exactly at the boundary where `main.py` calls them.
Everything between those boundaries is a direct transcription of the
Python source.
-/

namespace Scraper

/-! ## Data model -/

/-- Result of `session.get(url)` as observed by `fetch` in `main.py`:
either a final HTTP response `(status, body)` (after the session's retry
policy has run its course), or a non-HTTPError exception raised by the
transport itself (connection errors, retry exhaustion, ...). -/
inductive Transport where
  | resp : Nat → String → Transport
  | exn : String → Transport
deriving DecidableEq

/-- The exceptions `fetch` in `main.py` can raise: a re-raised
`requests.HTTPError` for a non-success status, a propagated non-HTTP
transport exception, `RuntimeError("Selenium fetch failed: ...")`, and
`RuntimeError("Unable to fetch URL: ...")`. -/
inductive FetchErr where
  | httpError : Nat → FetchErr
  | transportExn : String → FetchErr
  | seleniumError : String → FetchErr
  | unableToFetch : String → FetchErr
deriving DecidableEq

/-- Message text carried by each failure. The `seleniumError` and
`unableToFetch` formats are the f-strings of `main.py`; the `httpError`
format follows the `requests` library's `"<status> Client Error"`
exception text (external to the repository), and `transportExn` carries
the transport's own message. -/
def FetchErr.message : FetchErr → String
  | .httpError s => (toString s) ++ (" Client Error")
  | .transportExn m => m
  | .seleniumError c => ("Selenium fetch failed: ") ++ c
  | .unableToFetch u => ("Unable to fetch URL: ") ++ u

/-- The `additional` sub-dictionary built for every review
in `parse_reviews_from_soup` (`main.py` lines 215-218). -/
structure Additional where
  rating : Option String
  reviewer : Option String
deriving DecidableEq

/-- The review dictionary built in `parse_reviews_from_soup`
(`main.py` lines 210-219): `date` is the ISO string or `None`;
`rating` and `reviewer` live inside the nested `additional` dict. -/
structure Review where
  title : String
  description : String
  date : Option String
  source : String
  additional : Additional
deriving DecidableEq

/-- A review-candidate DOM fragment as consumed by the per-element body of
`parse_reviews_from_soup`. Each field records the result of the
BeautifulSoup query the Python code performs on the element:
`htmlText` is `str(el)`; `text` is `el.get_text(separator=" ", strip=True)`;
`heading3/4/2` are the stripped texts of the first `h3`/`h4`/`h2`
descendant (`none` when absent); `dateTexts` are the stripped texts of the
`time`/`span`/`p` descendants in document order; `textTokens` are the
stripped fragments of `el.get_text(separator=" | ").split("|")`. -/
structure Element where
  htmlText : String
  text : String
  heading3 : Option String
  heading4 : Option String
  heading2 : Option String
  dateTexts : List String
  textTokens : List String
deriving DecidableEq

/-- A fetched page as consumed by the pagination loop of
`_scrape_with_pagination`: `recs` is the output of
`parse_reviews_from_soup` on the page, and `next` is the resolved
next-page URL chosen by the loop's three heuristics (`none` when no next
link is found). -/
structure Page where
  recs : List Review
  next : Option String

/-- A page document as consumed by `capterra_search_company_link`:
`anchors` is the list of `href` values of `<a href=...>` tags in document
order, and `canonical` is the `href` attribute of the first
`<link rel="canonical">` element (`none` when the element or the
attribute is absent). -/
structure Doc where
  anchors : List String
  canonical : Option String
deriving DecidableEq

/-! ## Fetch orchestrator (`fetch`, `main.py` lines 58-97) -/

/-- Transcription of `fetch` (`main.py` lines 58-97). `render` models the
Selenium rendering capability: `none` when `SELENIUM_AVAILABLE` is false,
`some outcome` when it is present, where `outcome` is the result of one
headless rendering attempt for this URL. `t` is the transport's response
for this URL. A 403 response with the capability present falls through to
the rendering block; any other 4xx/5xx status (and a 403 without the
capability) raises the HTTP error; a non-error status returns the body at
once, regardless of `useSelenium` (the code returns `r.text` before ever
consulting the flag). -/
def fetch (render : Option (Except String String)) (useSelenium : Bool)
    (url : String) (t : Transport) : Except FetchErr String :=
  match t with
  | .exn m => .error (.transportExn m)
  | .resp status body =>
    if status = 403 ∧ render.isSome = true then
      match render with
      | some (.ok html) => .ok html
      | some (.error cause) => .error (.seleniumError cause)
      | none => .error (.unableToFetch url)
    else if 400 ≤ status ∧ status < 600 then
      .error (.httpError status)
    else .ok body

/-! ## Date parsing and the pre-flight check (`parse_date`, `main`) -/

/-- Transcription of `parse_date` (`main.py` lines 40-45). `p` is the
oracle for `dateutil.parser.parse(...).date()`: `none` models the parser
raising, `some d` a parsed calendar date (dates are represented as days
on an abstract linear scale). -/
def parse_date (p : String → Option Nat) (dstr : String) : Except String Nat :=
  match p dstr with
  | some d => .ok d
  | none => .error (("Invalid date: ") ++ dstr)

/-- Transcription of the pre-flight stage of `main` (`main.py` lines
311-318): both CLI date strings are parsed; a `ValueError` from either
prints the message and exits with code 1 before any session is created or
fetch attempted (`.error 1`), otherwise the run proceeds to the scraping
stage with the parsed pair (`.ok (s, e)`), with no comparison between the
two dates. The output file is written only in the `.ok` branch of the
run. -/
def mainRun (p : String → Option Nat) (startStr endStr : String) :
    Except Nat (Nat × Nat) :=
  match parse_date p startStr with
  | .error _ => .error 1
  | .ok s =>
    match parse_date p endStr with
    | .error _ => .error 1
    | .ok e => .ok (s, e)

/-! ## Review extractor (`parse_reviews_from_soup`, `main.py` 164-231) -/

/-- Rating-token test from `main.py` line 206: the token ends with `/5`,
ends with ` out of 5`, or lowercases to something starting with
`rating`. -/
def isRatingTok (t : String) : Bool :=
  t.endsWith ("/5") || t.endsWith (" out of 5") || (t.toLower).startsWith ("rating")

/-- Per-candidate body of the extraction loop (`main.py` lines 181-220):
discard the candidate when its visible text is empty or shorter than 40
characters; otherwise build the review record. `pf` is the oracle for
`dateutil.parser.parse(st, fuzzy=True).date()` and `iso` for
`date.isoformat()`. -/
def extractElement (pf : String → Option Nat) (iso : Nat → String)
    (source : String) (el : Element) : Option Review :=
  if el.text = "" ∨ el.text.length < 40 then none
  else
    let titleOpt : Option String :=
      match el.heading3 with
      | some t => some t
      | none =>
        match el.heading4 with
        | some t => some t
        | none => el.heading2
    let fallbackTitle : String := (el.text.take 120) ++ ("...")
    let title : String :=
      match titleOpt with
      | some t => if t = "" then fallbackTitle else t
      | none => fallbackTitle
    let dateVal : Option Nat := el.dateTexts.findSome? pf
    let rating : Option String := el.textTokens.find? isRatingTok
    some { title := title
           description := el.text
           date := dateVal.map iso
           source := source
           additional := { rating := rating, reviewer := none } }

/-- The candidate loop of `parse_reviews_from_soup` (`main.py` lines
172-220) with its structural dedup: a candidate whose serialized markup
`str(el)` was already seen is skipped; otherwise the markup is recorded
as seen and the candidate is processed by the per-element body. -/
def extractLoop (pf : String → Option Nat) (iso : Nat → String)
    (source : String) : List String → List Element → List Review
  | _, [] => []
  | seen, el :: rest =>
    if el.htmlText ∈ seen then extractLoop pf iso source seen rest
    else
      match extractElement pf iso source el with
      | none => extractLoop pf iso source (el.htmlText :: seen) rest
      | some r => r :: extractLoop pf iso source (el.htmlText :: seen) rest

/-- The semantic dedup loop of `parse_reviews_from_soup` (`main.py` lines
222-231): walk the records keeping a set of seen descriptions; a record
with a falsy (empty) description or an already-seen description is
dropped, otherwise it is kept and its description recorded. -/
def dedupeAux : List String → List Review → List Review
  | _, [] => []
  | seen, r :: rs =>
    if r.description = "" ∨ r.description ∈ seen then dedupeAux seen rs
    else r :: dedupeAux (r.description :: seen) rs

/-- The semantic dedup pass applied to the whole extracted sequence
(`main.py` lines 222-231, starting from an empty seen-set). -/
def dedupeReviews (l : List Review) : List Review := dedupeAux [] l

/-- Transcription of `parse_reviews_from_soup` (`main.py` lines 164-231):
the candidate list (the concatenation of the three `find_all`/`select`
query results) is processed by the structural-dedup extraction loop, and
the result goes through the semantic dedup by description. -/
def parse_reviews_from_soup (pf : String → Option Nat) (iso : Nat → String)
    (source : String) (candidates : List Element) : List Review :=
  dedupeReviews (extractLoop pf iso source [] candidates)

/-! ## Date filter (`_scrape_with_pagination`, `main.py` lines 266-278) -/

/-- Per-record predicate of the date filter (`main.py` lines 268-277): a
falsy `date` field (`None` or the empty string) passes; otherwise the
string is re-parsed with the oracle `p`; a parse failure (the `except`
branch) passes; a parsed date passes iff it lies within
`[s, e]` inclusive. -/
def keepReview (s e : Nat) (p : String → Option Nat) (r : Review) : Bool :=
  match r.date with
  | none => true
  | some ds =>
    if ds = "" then true
    else
      match p ds with
      | none => true
      | some d => decide (s ≤ d ∧ d ≤ e)

/-- The date-filter loop of `_scrape_with_pagination` (`main.py` lines
266-278), applied to the accumulated records of one source. -/
def filterByDate (s e : Nat) (p : String → Option Nat) (rs : List Review) :
    List Review :=
  rs.filter (keepReview s e p)

/-! ## Pagination walker (`_scrape_with_pagination`, `main.py` 234-264) -/

/-- Page store modelling what the fetch layer returns per URL inside the
pagination loop: `none` models `fetch` raising for that URL (any
exception), `some pg` a successful fetch whose parsed content is `pg`. -/
def lookupPage (pages : List (String × Page)) (u : String) : Option Page :=
  match pages.find? (fun pr => pr.1 == u) with
  | some pr => some pr.2
  | none => none

/-- Transcription of the `while` loop of `_scrape_with_pagination`
(`main.py` lines 236-264). State: `visited` is the visited-URL set (kept
as a list, newest first), `acc` the accumulated records, and the
argument the current `next_url` (`none` when no next link was found).
The loop runs while there is a next URL not already visited; it marks the
URL visited, fetches it (a fetch exception breaks out of the loop,
keeping `acc`), appends the page's extracted records, and moves to the
page's next link. The returned pair is the final `(visited, reviews)`
state. -/
def walkAux (pages : List (String × Page)) (visited : List String)
    (acc : List Review) (ou : Option String) : List String × List Review :=
  match ou with
  | none => (visited, acc)
  | some u =>
    if hu : u ∈ visited then (visited, acc)
    else
      match hp : lookupPage pages u with
      | none => (u :: visited, acc)
      | some pg => walkAux pages (u :: visited) (acc ++ pg.recs) pg.next
termination_by ((pages.map Prod.fst).filter (fun k => decide (¬ k ∈ visited))).length
decreasing_by
  simp_wf
  have hmem : u ∈ pages.map Prod.fst := by
    unfold lookupPage at hp
    cases hf : List.find? (fun pr => pr.1 == u) pages with
    | none => rw [hf] at hp; exact absurd hp (by simp)
    | some pr =>
      have h1 := List.mem_of_find?_eq_some hf
      have h2 := List.find?_some hf
      have h3 : pr.1 = u := by simpa using h2
      exact h3 ▸ List.mem_map_of_mem Prod.fst h1
  generalize pages.map Prod.fst = L at hmem ⊢
  induction L with
  | nil => cases hmem
  | cons a L ih =>
    by_cases ha : a ∈ visited
    · have hmem' : u ∈ L := by
        rcases List.mem_cons.mp hmem with h | h
        · exact absurd (h ▸ ha) hu
        · exact h
      simpa [List.filter_cons, ha] using ih hmem'
    · by_cases hau : a = u
      · subst hau
        have hmono :
            (L.filter (fun k => !decide (k = a) && !decide (k ∈ visited))).length ≤
              (L.filter (fun k => !decide (k ∈ visited))).length :=
          List.Sublist.length_le (List.monotone_filter_right L (fun x hx => by
            simp only [Bool.and_eq_true] at hx
            exact hx.2))
        simp only [List.filter_cons]
        simp [ha]
        omega
      · have hmem' : u ∈ L := by
          rcases List.mem_cons.mp hmem with h | h
          · exact absurd h.symm hau
          · exact h
        have := ih hmem'
        simp [List.filter_cons, hau, ha]
        omega

/-- Transcription of `_scrape_with_pagination` as a whole (`main.py`
lines 234-278): run the pagination loop from the start URL with an empty
visited set, then apply the date filter once to the accumulated records
and return the filtered list. -/
def scrape_with_pagination (pages : List (String × Page)) (startUrl : String)
    (s e : Nat) (p : String → Option Nat) : List Review :=
  filterByDate s e p (walkAux pages [] [] (some startUrl)).2

/-! ## Capterra link discovery (`capterra_search_company_link`, 113-149) -/

/-- Substring test on character lists, modelling Python's `in` operator
on strings (`"/product/" in href`). -/
def hasSubList (n : List Char) : List Char → Bool
  | [] => n.isEmpty
  | c :: rest => n.isPrefixOf (c :: rest) || hasSubList n rest

/-- Substring test on strings: `containsSub needle hay` models
`needle in hay` in Python. -/
def containsSub (needle hay : String) : Bool :=
  hasSubList needle.toList hay.toList

/-- Anchor-href test from `main.py` line 143: the href starts with `/p`,
contains `/product/` or `/software/`, or starts with `/vendor/`. -/
def capterraMatch (href : String) : Bool :=
  href.startsWith ("/p") || containsSub ("/product/") href ||
    containsSub ("/software/") href || href.startsWith ("/vendor/")

/-- Transcription of the nested `slugify` helper (`main.py` lines
122-126): lowercase, keep only alphanumeric / whitespace / hyphen
characters, then join the whitespace-separated words with single
hyphens (Python's `str.split()` drops empty fragments). -/
def slugify (name : String) : String :=
  let lowered := name.toLower
  let kept := String.mk (lowered.toList.filter
    (fun c => c.isAlphanum || c.isWhitespace || c = '-'))
  String.intercalate ("-") ((kept.split Char.isWhitespace).filter (fun w => ¬ w = ""))

/-- The candidate loop of `capterra_search_company_link` (`main.py` lines
134-149): for each candidate URL, a fetch exception moves on to the next
candidate; otherwise the first matching anchor is returned (absolutized
with `urljoin`, modelled by the oracle `uj` with the site base fixed);
failing that, a canonical link with a truthy href is returned; failing
that too, the next candidate is tried. `none` when all candidates are
exhausted. -/
def searchCandidates (uj : String → String) (f : String → Option Doc) :
    List String → Option String
  | [] => none
  | u :: rest =>
    match f u with
    | none => searchCandidates uj f rest
    | some doc =>
      match doc.anchors.find? capterraMatch with
      | some href => some (uj href)
      | none =>
        match doc.canonical with
        | some h => if ¬ h = "" then some h else searchCandidates uj f rest
        | none => searchCandidates uj f rest

/-- Transcription of `capterra_search_company_link` (`main.py` lines
113-149): the candidate list is the two search-query variants followed by
the two slug-guess URLs, processed by the candidate loop. `q` is the
oracle for `urllib.parse.quote_plus`, `uj` for
`urljoin("https://www.capterra.com", ...)`, and `f` for `fetch` (`none`
models a fetch exception for that URL). -/
def capterra_search_company_link (uj : String → String) (q : String → String)
    (f : String → Option Doc) (company : String) : Option String :=
  let slug := slugify company
  searchCandidates uj f
    [("https://www.capterra.com/search?search=") ++ q company,
     ("https://www.capterra.com/search?query=") ++ q company,
     ("https://www.capterra.com/p/") ++ slug,
     ("https://www.capterra.com/software/") ++ slug]

/-- Slug rule as worded by the spec: lowercase the company name, remove
every character other than alphanumerics, whitespace, and hyphens, then
collapse whitespace runs into single hyphens. Stated separately from
`slugify` so the source transcription can be compared against the spec's
wording. -/
def slugSpec (name : String) : String :=
  let kept := String.mk (name.toLower.toList.filter
    (fun c => c.isAlphanum || c.isWhitespace || c = '-'))
  String.intercalate ("-") ((kept.split Char.isWhitespace).filter (fun w => ¬ w = ""))

/-- Per-candidate yield as worded by the spec: the first matching anchor
(absolutized), else the canonical link element's (truthy) URL, else
nothing. -/
def candidateYieldSpec (uj : String → String) (doc : Doc) : Option String :=
  match doc.anchors.find? capterraMatch with
  | some href => some (uj href)
  | none =>
    match doc.canonical with
    | some h => if ¬ h = "" then some h else none
    | none => none

/-- Capterra link discovery as worded by the spec: try exactly the four
candidate URLs in order — two search-query variants, then `/p/<slug>`,
then `/software/<slug>` — and return the yield of the first candidate
that yields any link, moving to the next candidate only when the current
one (fetch included) yields nothing. -/
def capterraSpecSearch (uj : String → String) (q : String → String)
    (f : String → Option Doc) (company : String) : Option String :=
  [("https://www.capterra.com/search?search=") ++ q company,
   ("https://www.capterra.com/search?query=") ++ q company,
   ("https://www.capterra.com/p/") ++ slugSpec company,
   ("https://www.capterra.com/software/") ++ slugSpec company].findSome?
    (fun u => (f u).bind (candidateYieldSpec uj))

/-! ## JSON shape of a record (`json.dump` of the review dict) -/

/-- A JSON value, as far as the review dict's shape is concerned. -/
inductive JVal where
  | jnull : JVal
  | jstr : String → JVal
  | jobj : List (String × JVal) → JVal

/-- Serialization of an optional string field (`None` becomes JSON
null). -/
def optStr : Option String → JVal
  | none => .jnull
  | some s => .jstr s

/-- JSON shape of the review dict built at `main.py` lines 210-219: four
scalar fields plus the nested `additional` object holding `rating` and
`reviewer`. -/
def Review.toJson (r : Review) : JVal :=
  .jobj [(("title"), .jstr r.title),
         (("description"), .jstr r.description),
         (("date"), optStr r.date),
         (("source"), .jstr r.source),
         (("additional"), .jobj [(("rating"), optStr r.additional.rating),
                                 (("reviewer"), optStr r.additional.reviewer)])]

/-- Top-level keys of a JSON value (empty for non-objects). -/
def topKeys : JVal → List String
  | .jobj fs => fs.map Prod.fst
  | .jnull => []
  | .jstr _ => []

/-! ## Concrete instances used by counterexamples and witnesses -/

/-- Date-parse oracle that always fails (also a valid stand-in for
`dateutil` on the empty string, which it rejects). -/
def pf0 : String → Option Nat := fun _ => none

/-- Concrete `isoformat` oracle. -/
def iso0 : Nat → String := fun n => toString n

/-- Concrete date-parse oracle for the two ISO dates used by the
pre-flight counterexample: `2023-12-31` parses to day 1094 and
`2023-01-01` to day 731 (both parsable, and 1094 > 731). -/
def demoParse : String → Option Nat := fun s =>
  if s = ("2023-12-31") then some 1094
  else if s = ("2023-01-01") then some 731
  else none

/-- A 58-character review body (long enough for the extractor). -/
def demoText : String :=
  ("this review description text is long enough for the filter")

/-- A concrete review-candidate element whose text passes the length
filter and which has no headings, no date-bearing children, and no
rating tokens. -/
def demoEl : Element :=
  { htmlText := ("<article>demo</article>")
    text := demoText
    heading3 := none
    heading4 := none
    heading2 := none
    dateTexts := []
    textTokens := [] }

/-- A concrete candidate element whose text is shorter than 40
characters. -/
def shortEl : Element :=
  { htmlText := ("<article>short</article>")
    text := ("too short")
    heading3 := none
    heading4 := none
    heading2 := none
    dateTexts := []
    textTokens := [] }

/-- The record the extractor produces from `demoEl`. -/
def demoReview : Review :=
  { title := demoText ++ ("...")
    description := demoText
    date := none
    source := ("g2")
    additional := { rating := none, reviewer := none } }

/-- Two records sharing one description but differing in every other
field, for the dedup identity witness. -/
def rvA : Review :=
  { title := ("first title")
    description := ("duplicate description text used twice")
    date := none
    source := ("g2")
    additional := { rating := none, reviewer := none } }

/-- Second record with the same description as `rvA`. -/
def rvB : Review :=
  { title := ("second title")
    description := ("duplicate description text used twice")
    date := some ("2023-06-01")
    source := ("capterra")
    additional := { rating := some ("5/5"), reviewer := none } }

/-- A two-page store containing a cycle: page A's next link points to B
and page B's next link points back to A. -/
def pagesAB : List (String × Page) :=
  [(("A"), { recs := [], next := some ("B") }),
   (("B"), { recs := [], next := some ("A") })]

/-- A one-page store whose page A links to a page B that fails to
fetch. -/
def pagesA : List (String × Page) :=
  [(("A"), { recs := [rvA], next := some ("B") })]

/-! ## Helper lemmas about the semantic dedup -/

/-- Members of the dedup output have a description that is non-empty, not
in the seen-set, and come from the input. -/
theorem mem_dedupeAux : ∀ (l : List Review) (seen : List String) (r : Review),
    r ∈ dedupeAux seen l →
    ¬ r.description = "" ∧ ¬ r.description ∈ seen ∧ r ∈ l := by
  intro l
  induction l with
  | nil => intro seen r h; cases h
  | cons x xs ih =>
    intro seen r h
    by_cases hx : x.description = "" ∨ x.description ∈ seen
    · rw [dedupeAux, if_pos hx] at h
      obtain ⟨h1, h2, h3⟩ := ih seen r h
      exact ⟨h1, h2, List.mem_cons_of_mem _ h3⟩
    · rw [dedupeAux, if_neg hx] at h
      rcases List.mem_cons.mp h with rfl | h'
      · push_neg at hx
        exact ⟨hx.1, hx.2, List.mem_cons_self _ _⟩
      · obtain ⟨h1, h2, h3⟩ := ih _ r h'
        exact ⟨h1, fun hc => h2 (List.mem_cons_of_mem _ hc),
          List.mem_cons_of_mem _ h3⟩

/-- Dedup is idempotent for any seen-set. -/
theorem dedupeAux_idem : ∀ (l : List Review) (seen : List String),
    dedupeAux seen (dedupeAux seen l) = dedupeAux seen l := by
  intro l
  induction l with
  | nil => intro seen; rfl
  | cons x xs ih =>
    intro seen
    by_cases hx : x.description = "" ∨ x.description ∈ seen
    · rw [dedupeAux, if_pos hx]
      exact ih seen
    · rw [dedupeAux, if_neg hx, dedupeAux, if_neg hx]
      rw [ih (x.description :: seen)]

/-- Descriptions in the dedup output are pairwise distinct. -/
theorem dedupeAux_pairwise : ∀ (l : List Review) (seen : List String),
    (dedupeAux seen l).Pairwise (fun a b => ¬ a.description = b.description) := by
  intro l
  induction l with
  | nil => intro seen; simp [dedupeAux]
  | cons x xs ih =>
    intro seen
    by_cases hx : x.description = "" ∨ x.description ∈ seen
    · rw [dedupeAux, if_pos hx]
      exact ih seen
    · rw [dedupeAux, if_neg hx]
      refine List.pairwise_cons.mpr ⟨?_, ih _⟩
      intro b hb he
      have h2 := (mem_dedupeAux xs _ b hb).2.1
      exact h2 (List.mem_cons.mpr (Or.inl he.symm))

/-- The dedup output is a subsequence of its input. -/
theorem dedupeAux_sublist : ∀ (l : List Review) (seen : List String),
    (dedupeAux seen l).Sublist l := by
  intro l
  induction l with
  | nil => intro seen; simp [dedupeAux]
  | cons x xs ih =>
    intro seen
    by_cases hx : x.description = "" ∨ x.description ∈ seen
    · rw [dedupeAux, if_pos hx]
      exact (ih seen).cons x
    · rw [dedupeAux, if_neg hx]
      exact (ih _).cons₂ x

/-- Every record kept by the dedup is the first record of the input with
its description. -/
theorem dedupeAux_first : ∀ (l : List Review) (seen : List String) (r : Review),
    r ∈ dedupeAux seen l →
    l.find? (fun x => x.description == r.description) = some r := by
  intro l
  induction l with
  | nil => intro seen r h; cases h
  | cons x xs ih =>
    intro seen r h
    by_cases hx : x.description = "" ∨ x.description ∈ seen
    · rw [dedupeAux, if_pos hx] at h
      have hr := mem_dedupeAux xs seen r h
      have hne : ¬ (x.description == r.description) = true := by
        simp only [beq_iff_eq]
        intro he
        rcases hx with hx | hx
        · exact hr.1 (he ▸ hx)
        · exact hr.2.1 (he ▸ hx)
      rw [@List.find?_cons_of_neg _ (fun y => y.description == r.description) x xs hne]
      exact ih seen r h
    · rw [dedupeAux, if_neg hx] at h
      rcases List.mem_cons.mp h with rfl | h'
      · rw [@List.find?_cons_of_pos _ (fun y => y.description == r.description) r xs (by simp)]
      · have hr := mem_dedupeAux xs _ r h'
        have hne : ¬ (x.description == r.description) = true := by
          simp only [beq_iff_eq]
          intro he
          exact hr.2.1 (List.mem_cons.mpr (Or.inl he.symm))
        rw [@List.find?_cons_of_neg _ (fun y => y.description == r.description) x xs hne]
        exact ih _ r h'

/-! ## Helper lemmas about the extractor -/

/-- Field facts about any record the per-candidate body emits: the
description is the candidate's visible text (at least 40 characters),
the source is the tag passed in, and the reviewer is null. -/
theorem extractElement_eq_some (pf : String → Option Nat) (iso : Nat → String)
    (source : String) (el : Element) (r : Review)
    (h : extractElement pf iso source el = some r) :
    40 ≤ el.text.length ∧ r.description = el.text ∧ r.source = source ∧
      r.additional.reviewer = none := by
  unfold extractElement at h
  by_cases hc : el.text = "" ∨ el.text.length < 40
  · rw [if_pos hc] at h
    cases h
  · rw [if_neg hc] at h
    simp only [Option.some.injEq] at h
    subst h
    push_neg at hc
    exact ⟨hc.2, rfl, rfl, rfl⟩

/-- Every record produced by the extraction loop comes from some
candidate via the per-candidate body. -/
theorem mem_extractLoop (pf : String → Option Nat) (iso : Nat → String)
    (source : String) : ∀ (cs : List Element) (seen : List String) (r : Review),
    r ∈ extractLoop pf iso source seen cs →
    ∃ el, el ∈ cs ∧ extractElement pf iso source el = some r := by
  intro cs
  induction cs with
  | nil => intro seen r h; cases h
  | cons el rest ih =>
    intro seen r h
    rw [extractLoop] at h
    by_cases hs : el.htmlText ∈ seen
    · rw [if_pos hs] at h
      obtain ⟨e, he, hx⟩ := ih _ r h
      exact ⟨e, List.mem_cons_of_mem _ he, hx⟩
    · rw [if_neg hs] at h
      cases hx : extractElement pf iso source el with
      | none =>
        rw [hx] at h
        obtain ⟨e, he, hy⟩ := ih _ r h
        exact ⟨e, List.mem_cons_of_mem _ he, hy⟩
      | some r' =>
        rw [hx] at h
        rcases List.mem_cons.mp h with rfl | h'
        · exact ⟨el, List.mem_cons_self _ _, hx⟩
        · obtain ⟨e, he, hy⟩ := ih _ r h'
          exact ⟨e, List.mem_cons_of_mem _ he, hy⟩

/-- Membership in the extractor's final output implies membership in the
raw extraction-loop output. -/
theorem mem_parse_reviews (pf : String → Option Nat) (iso : Nat → String)
    (source : String) (cs : List Element) (r : Review)
    (h : r ∈ parse_reviews_from_soup pf iso source cs) :
    ∃ el, el ∈ cs ∧ extractElement pf iso source el = some r := by
  unfold parse_reviews_from_soup dedupeReviews at h
  exact mem_extractLoop pf iso source cs [] r (mem_dedupeAux _ _ _ h).2.2

/-! ## Helper lemmas about the pagination walker -/

/-- The walk on a missing next URL returns the state unchanged. -/
theorem walkAux_none (pages : List (String × Page)) (visited : List String)
    (acc : List Review) : walkAux pages visited acc none = (visited, acc) := by
  rw [walkAux]

/-- The walk on an already-visited next URL returns the state
unchanged. -/
theorem walkAux_visited (pages : List (String × Page)) (visited : List String)
    (acc : List Review) (u : String) (h : u ∈ visited) :
    walkAux pages visited acc (some u) = (visited, acc) := by
  rw [walkAux]
  simp [h]

/-- A fetch failure on a fresh URL marks it visited and ends the walk
with the records accumulated so far. -/
theorem walkAux_fetch_fail (pages : List (String × Page)) (visited : List String)
    (acc : List Review) (u : String) (h1 : ¬ u ∈ visited)
    (h2 : lookupPage pages u = none) :
    walkAux pages visited acc (some u) = (u :: visited, acc) := by
  rw [walkAux]
  simp only [dif_neg h1]
  split
  · rfl
  · next pg heq => rw [h2] at heq; cases heq

/-- A successful fetch on a fresh URL marks it visited, appends the
page's records, and continues with the page's next link. -/
theorem walkAux_step (pages : List (String × Page)) (visited : List String)
    (acc : List Review) (u : String) (pg : Page) (h1 : ¬ u ∈ visited)
    (h2 : lookupPage pages u = some pg) :
    walkAux pages visited acc (some u) =
      walkAux pages (u :: visited) (acc ++ pg.recs) pg.next := by
  rw [walkAux]
  simp only [dif_neg h1]
  split
  · next heq => rw [h2] at heq; cases heq
  · next pg2 heq => rw [h2] at heq; cases heq; rfl

/-- The visited list only grows along the walk, and it stays duplicate
free when it starts duplicate free. -/
theorem walkAux_nodup (pages : List (String × Page)) (visited : List String)
    (acc : List Review) (ou : Option String) (h : visited.Nodup) :
    ((walkAux pages visited acc ou).1).Nodup :=
  match ou with
  | none => by rw [walkAux_none]; exact h
  | some u =>
    if hu : u ∈ visited then by rw [walkAux_visited _ _ _ _ hu]; exact h
    else
      match hp : lookupPage pages u with
      | none => by
        rw [walkAux_fetch_fail _ _ _ _ hu hp]
        exact List.nodup_cons.mpr ⟨hu, h⟩
      | some pg => by
        rw [walkAux_step _ _ _ _ _ hu hp]
        exact walkAux_nodup pages (u :: visited) (acc ++ pg.recs) pg.next
          (List.nodup_cons.mpr ⟨hu, h⟩)
termination_by ((pages.map Prod.fst).filter (fun k => decide (¬ k ∈ visited))).length
decreasing_by
  simp_wf
  have hmem : u ∈ pages.map Prod.fst := by
    unfold lookupPage at hp
    cases hf : List.find? (fun pr => pr.1 == u) pages with
    | none => rw [hf] at hp; exact absurd hp (by simp)
    | some pr =>
      have h1 := List.mem_of_find?_eq_some hf
      have h2 := List.find?_some hf
      have h3 : pr.1 = u := by simpa using h2
      exact h3 ▸ List.mem_map_of_mem Prod.fst h1
  generalize pages.map Prod.fst = L at hmem ⊢
  induction L with
  | nil => cases hmem
  | cons a L ih =>
    by_cases ha : a ∈ visited
    · have hmem' : u ∈ L := by
        rcases List.mem_cons.mp hmem with h | h
        · exact absurd (h ▸ ha) hu
        · exact h
      simpa [List.filter_cons, ha] using ih hmem'
    · by_cases hau : a = u
      · subst hau
        have hmono :
            (L.filter (fun k => !decide (k = a) && !decide (k ∈ visited))).length ≤
              (L.filter (fun k => !decide (k ∈ visited))).length :=
          List.Sublist.length_le (List.monotone_filter_right L (fun x hx => by
            simp only [Bool.and_eq_true] at hx
            exact hx.2))
        simp only [List.filter_cons]
        simp [ha]
        omega
      · have hmem' : u ∈ L := by
          rcases List.mem_cons.mp hmem with h | h
          · exact absurd h.symm hau
          · exact h
        have := ih hmem'
        simp [List.filter_cons, hau, ha]
        omega

/-! ## Helper lemma about the capterra candidate loop -/

/-- The source's candidate loop equals first-yield selection over the
candidate list. -/
theorem searchCandidates_eq_findSome (uj : String → String)
    (f : String → Option Doc) : ∀ l : List String,
    searchCandidates uj f l =
      l.findSome? (fun u => (f u).bind (candidateYieldSpec uj)) := by
  intro l
  induction l with
  | nil => rfl
  | cons u rest ih =>
    rw [searchCandidates, List.findSome?_cons]
    cases hf : f u with
    | none => simpa using ih
    | some doc =>
      simp only [Option.some_bind]
      cases ha : doc.anchors.find? capterraMatch with
      | some href => simp [candidateYieldSpec, ha]
      | none =>
        cases hc : doc.canonical with
        | none => simp [candidateYieldSpec, ha, hc, ih]
        | some h =>
          by_cases hh : h = ""
          · simp [candidateYieldSpec, ha, hc, hh, ih]
          · simp [candidateYieldSpec, ha, hc, hh]

/-! ## Claim theorems -/

/-- Claim C1, counterexample: with both CLI dates parsable but the start
date (day 1094) strictly after the end date (day 731), the pre-flight
stage of `main` does not exit non-zero — the run proceeds to the
scraping stage, so the claimed `start <= end` validation does not
happen. -/
theorem main_range_not_validated :
    demoParse ("2023-12-31") = some 1094 ∧
    demoParse ("2023-01-01") = some 731 ∧
    731 < 1094 ∧
    mainRun demoParse ("2023-12-31") ("2023-01-01") = Except.ok (1094, 731) :=
  ⟨rfl, rfl, by norm_num, rfl⟩

/-- Claim C1, amended: the pre-flight stage exits with code 1 (writing no
output) exactly when one of the two date strings fails to parse; for any
two parsable dates — in either order — it proceeds to the fetch stage
without raising; the ordering `start <= end` is not checked. -/
theorem mainRun_preflight (p : String → Option Nat) (a b : String) :
    (p a = none → mainRun p a b = Except.error 1) ∧
    (∀ s, p a = some s → p b = none → mainRun p a b = Except.error 1) ∧
    (∀ s e, p a = some s → p b = some e → mainRun p a b = Except.ok (s, e)) := by
  refine ⟨fun h => ?_, fun s h1 h2 => ?_, fun s e h1 h2 => ?_⟩
  · simp [mainRun, parse_date, h]
  · simp [mainRun, parse_date, h1, h2]
  · simp [mainRun, parse_date, h1, h2]

/-- Witness for the amended C1 theorem at concrete inputs: an unparsable
start date aborts with exit code 1, and a parsable pair (here in
increasing order) proceeds. -/
theorem mainRun_preflight_check :
    mainRun demoParse ("nope") ("2023-01-01") = Except.error 1 ∧
    mainRun demoParse ("2023-01-01") ("2023-12-31") = Except.ok (731, 1094) :=
  ⟨(mainRun_preflight demoParse ("nope") ("2023-01-01")).1 rfl,
   (mainRun_preflight demoParse ("2023-01-01") ("2023-12-31")).2.2 731 1094 rfl rfl⟩

/-- Claim C2, counterexample: a 403 transport response with the rendering
capability absent makes `fetch` re-raise the transport's HTTP 403 error;
the failure's message is not `render capability unavailable` and does not
even mention rendering — no such failure exists in the code. -/
theorem fetch_blocked_no_render_message :
    fetch none false ("https://x.example") (.resp 403 ("body")) =
      Except.error (FetchErr.httpError 403) ∧
    ¬ (FetchErr.httpError 403).message = ("render capability unavailable") ∧
    containsSub ("render") (FetchErr.httpError 403).message = false :=
  ⟨rfl, by decide, by decide⟩

/-- Claim C2, amended: on a 403 transport response, `fetch` returns the
rendered document when the rendering capability is present and its
rendering attempt succeeds; a failing rendering attempt surfaces as the
`Selenium fetch failed` error; with the capability absent the HTTP 403
error propagates unchanged (no error naming the rendering capability). -/
theorem fetch_blocked_fallback (useS : Bool) (url body html cause : String) :
    fetch (some (Except.ok html)) useS url (.resp 403 body) = Except.ok html ∧
    fetch (some (Except.error cause)) useS url (.resp 403 body) =
      Except.error (FetchErr.seleniumError cause) ∧
    fetch none useS url (.resp 403 body) =
      Except.error (FetchErr.httpError 403) :=
  ⟨rfl, rfl, rfl⟩

/-- Claim C3: the date filter keeps a record whose date field is null,
keeps a record whose date string fails to parse, and keeps a record with
a parsed date `d` iff `s ≤ d ≤ e` (bounds inclusive); and the filter is
applied once, after the pagination walk of a source completes, to that
source's accumulated records. The hypothesis `hp` records that the date
parser rejects the empty string (as `dateutil` does). -/
theorem date_filter_correct (s e : Nat) (p : String → Option Nat)
    (hp : p ("") = none) :
    (∀ (rs : List Review) (r : Review), r ∈ rs →
      ((r.date = none → r ∈ filterByDate s e p rs) ∧
       (∀ str, r.date = some str → p str = none → r ∈ filterByDate s e p rs) ∧
       (∀ str d, r.date = some str → p str = some d →
         (r ∈ filterByDate s e p rs ↔ s ≤ d ∧ d ≤ e)))) ∧
    (∀ (pages : List (String × Page)) (startUrl : String),
      scrape_with_pagination pages startUrl s e p =
        filterByDate s e p (walkAux pages [] [] (some startUrl)).2) := by
  constructor
  · intro rs r hr
    refine ⟨fun hd => ?_, fun str hd hps => ?_, fun str d hd hps => ?_⟩
    · exact List.mem_filter.mpr ⟨hr, by simp [keepReview, hd]⟩
    · by_cases hstr : str = ""
      · exact List.mem_filter.mpr ⟨hr, by simp [keepReview, hd, hstr]⟩
      · exact List.mem_filter.mpr ⟨hr, by simp [keepReview, hd, hstr, hps]⟩
    · have hstr : ¬ str = "" := by
        intro hq
        rw [hq, hp] at hps
        cases hps
      constructor
      · intro hmem
        have hk := (List.mem_filter.mp hmem).2
        simpa [keepReview, hd, hstr, hps] using hk
      · intro hrange
        exact List.mem_filter.mpr ⟨hr,
          by simp [keepReview, hd, hstr, hps, hrange.1, hrange.2]⟩
  · intro pages startUrl
    rfl

/-- Witness for C3 at concrete inputs: a record with a null date passes
the filter. -/
theorem date_filter_correct_check :
    demoReview ∈ filterByDate 0 10 pf0 [demoReview] :=
  (((date_filter_correct 0 10 pf0 rfl).1 [demoReview] demoReview
    (List.mem_cons_self _ _)).1) rfl

/-- Claim C4: every record the extractor emits has a non-empty
description of at least 40 characters, and every candidate whose visible
text is empty or shorter than 40 characters is discarded entirely. -/
theorem description_min_length (pf : String → Option Nat) (iso : Nat → String)
    (source : String) :
    (∀ (cs : List Element) (r : Review),
      r ∈ parse_reviews_from_soup pf iso source cs →
      ¬ r.description = "" ∧ 40 ≤ r.description.length) ∧
    (∀ el : Element, el.text = "" ∨ el.text.length < 40 →
      extractElement pf iso source el = none) := by
  constructor
  · intro cs r h
    obtain ⟨el, _, hx⟩ := mem_parse_reviews pf iso source cs r h
    obtain ⟨hlen, hdesc, _, _⟩ := extractElement_eq_some pf iso source el r hx
    constructor
    · rw [hdesc]
      intro hq
      rw [hq] at hlen
      exact absurd hlen (by decide)
    · rw [hdesc]
      exact hlen
  · intro el hc
    unfold extractElement
    rw [if_pos hc]

set_option maxRecDepth 4000 in
/-- Witness for C4 at concrete inputs: the record extracted from `demoEl`
has a long description, and the 9-character candidate `shortEl` yields
no record. -/
theorem description_min_length_check :
    (¬ demoReview.description = "" ∧ 40 ≤ demoReview.description.length) ∧
    extractElement pf0 iso0 ("g2") shortEl = none :=
  ⟨(description_min_length pf0 iso0 ("g2")).1 [demoEl] demoReview (by decide),
   (description_min_length pf0 iso0 ("g2")).2 shortEl (Or.inr (by decide))⟩

/-- Claim C5: the semantic dedup is idempotent, and its identity is the
description text alone — the output never contains two records with the
same description, whatever their other fields. -/
theorem dedup_idempotent_desc_identity (l : List Review) :
    dedupeReviews (dedupeReviews l) = dedupeReviews l ∧
    (dedupeReviews l).Pairwise (fun a b => ¬ a.description = b.description) :=
  ⟨dedupeAux_idem l [], dedupeAux_pairwise l []⟩

/-- Claim C6: the pagination walker terminates on every page store (the
walk function is total, including on stores whose next links form a
cycle), its visited list stays duplicate free — each unique URL is
visited at most once — and it stops at once when the next URL is absent
or already visited. -/
theorem pagination_visits_nodup (pages : List (String × Page))
    (visited : List String) (acc : List Review) (ou : Option String)
    (h : visited.Nodup) :
    ((walkAux pages visited acc ou).1).Nodup ∧
    walkAux pages visited acc none = (visited, acc) ∧
    (∀ u, u ∈ visited → walkAux pages visited acc (some u) = (visited, acc)) :=
  ⟨walkAux_nodup pages visited acc ou h,
   walkAux_none pages visited acc,
   fun u hu => walkAux_visited pages visited acc u hu⟩

/-- Witness for C6 on the concrete cyclic page store `pagesAB` (A's next
is B, B's next is A): the walk terminates and its visited list has no
duplicates. -/
theorem pagination_visits_nodup_check :
    ((walkAux pagesAB [] [] (some ("A"))).1).Nodup :=
  (pagination_visits_nodup pagesAB [] [] (some ("A")) List.nodup_nil).1

/-- Claim C7: a fetch error on a page terminates the walk at that page
while keeping the records accumulated from earlier pages, and the scrape
returns the walk's accumulated records filtered (not discarded). -/
theorem walk_error_keeps_partial (pages : List (String × Page))
    (visited : List String) (acc : List Review) (u : String)
    (s e : Nat) (p : String → Option Nat) (startUrl : String)
    (h1 : ¬ u ∈ visited) (h2 : lookupPage pages u = none) :
    walkAux pages visited acc (some u) = (u :: visited, acc) ∧
    scrape_with_pagination pages startUrl s e p =
      filterByDate s e p (walkAux pages [] [] (some startUrl)).2 :=
  ⟨walkAux_fetch_fail pages visited acc u h1 h2, rfl⟩

/-- Witness for C7 on the concrete store `pagesA`: page A was walked
(its record `rvA` accumulated), and the failing fetch of page B ends the
walk keeping `rvA`. -/
theorem walk_error_keeps_partial_check :
    walkAux pagesA [("A")] [rvA] (some ("B")) = (("B") :: [("A")], [rvA]) ∧
    scrape_with_pagination pagesA ("A") 0 1 pf0 =
      filterByDate 0 1 pf0 (walkAux pagesA [] [] (some ("A"))).2 :=
  walk_error_keeps_partial pagesA [("A")] [rvA] ("B") 0 1 pf0 ("A")
    (by decide) rfl

set_option maxRecDepth 4000 in
/-- Claim C8, counterexample: the record the extractor produces does not
have `rating` or `reviewer` as top-level fields — its top-level keys are
`title`, `description`, `date`, `source`, `additional`, with `rating`
and `reviewer` nested inside `additional`. -/
theorem record_shape_not_toplevel :
    parse_reviews_from_soup pf0 iso0 ("g2") [demoEl] = [demoReview] ∧
    ¬ ("rating") ∈ topKeys demoReview.toJson ∧
    ¬ ("reviewer") ∈ topKeys demoReview.toJson :=
  ⟨by decide, by decide, by decide⟩

/-- Claim C8, amended: every record produced by the extractor serializes
with top-level keys `title`, `description`, `date`, `source`,
`additional`; `rating` and `reviewer` are optional fields nested inside
`additional`; and `reviewer` is always null (no heuristic populates
it). -/
theorem record_shape_nested (pf : String → Option Nat) (iso : Nat → String)
    (source : String) (cs : List Element) (r : Review)
    (h : r ∈ parse_reviews_from_soup pf iso source cs) :
    topKeys r.toJson =
      [("title"), ("description"), ("date"), ("source"), ("additional")] ∧
    r.additional.reviewer = none := by
  obtain ⟨el, _, hx⟩ := mem_parse_reviews pf iso source cs r h
  exact ⟨rfl, (extractElement_eq_some pf iso source el r hx).2.2.2⟩

set_option maxRecDepth 4000 in
/-- Witness for the amended C8 theorem on the concrete extraction from
`demoEl`. -/
theorem record_shape_nested_check :
    topKeys demoReview.toJson =
      [("title"), ("description"), ("date"), ("source"), ("additional")] ∧
    demoReview.additional.reviewer = none :=
  record_shape_nested pf0 iso0 ("g2") [demoEl] demoReview (by decide)

/-- Claim C9: capterra link discovery tries exactly the four candidate
URLs in order (two search-query variants, then `/p/<slug>`, then
`/software/<slug>`), with the slug built by the spec's rule, and returns
the yield of the first candidate that yields any link — first matching
anchor, else the canonical link's URL — moving on only when a candidate
yields nothing. -/
theorem capterra_link_discovery (uj : String → String) (q : String → String)
    (f : String → Option Doc) (company : String) :
    slugify company = slugSpec company ∧
    capterra_search_company_link uj q f company =
      capterraSpecSearch uj q f company := by
  constructor
  · rfl
  · unfold capterra_search_company_link capterraSpecSearch
    rw [searchCandidates_eq_findSome]
    rfl

/-- Claim C10: both the semantic dedup and the date filter return
order-preserving subsequences of their input, and the dedup keeps the
first occurrence of each distinct description. -/
theorem dedup_filter_order_preserving (s e : Nat) (p : String → Option Nat)
    (l : List Review) :
    (dedupeReviews l).Sublist l ∧
    (filterByDate s e p l).Sublist l ∧
    (∀ r, r ∈ dedupeReviews l →
      l.find? (fun x => x.description == r.description) = some r) :=
  ⟨dedupeAux_sublist l [], List.filter_sublist l,
   fun r hr => dedupeAux_first l [] r hr⟩

/-- Witness for C10 on two concrete records sharing a description: the
survivor of the dedup is the first of the two. -/
theorem dedup_filter_order_preserving_check :
    [rvA, rvB].find? (fun x => x.description == rvA.description) = some rvA :=
  (dedup_filter_order_preserving 0 1 pf0 [rvA, rvB]).2.2 rvA (by decide)

end Scraper
